import Mathlib

/-!
Verification of the Deen-Habit offline-first sync engine.

The definitions below are a shallow embedding of the TypeScript source:
  * `PrayerEntry`, `DayData`, `AppData` mirror `src/types.ts`
    (JS string-keyed objects become association lists or
    `String → Option _` maps; JS numbers that the program uses as
    non-negative integers become `Nat`).
  * `dayScore` and `mergeAppData` mirror `mergeAppData` in the supabase
    module (`src/unnamed/part_000`, lines 92-111).  The JS loop
    `for (const [date, localDay] of Object.entries(local.days))` writes
    each key of the seeded copy `{...remote.days}` at most once, so it is
    captured pointwise.
  * `RawDayData` / `mergeAppDataRaw` re-embed the same merge over
    possibly-malformed day records (a missing `prayers` map), where
    `Object.values(day.prayers)` raises a TypeError in JS; the raised
    exception is modelled as `Except.error ()`.
  * `pushToCloud` / `pullFromCloud` model the remote-store adapter
    (lines 64-90), with the supabase client's behaviour (success, error
    value, thrown exception, or absent configuration) as a parameter.
  * `signInSync` models the sign-in `useEffect` of `src/App.tsx`
    (lines 520-542); `runMutations` / `fireDue` model the debounced
    auto-sync `useEffect` (lines 545-556) together with the
    single-threaded `setTimeout` / `clearTimeout` event loop.
-/

/-- One value of the `prayers` map: `{ fard: boolean; sunnah: boolean }`
(`src/types.ts`, line 56). -/
structure PrayerEntry where
  fard : Bool
  sunnah : Bool
deriving DecidableEq

/-- `type Mode = "annual" | "ramadan"` (`src/types.ts`, line 1). -/
inductive Mode where
  | annual : Mode
  | ramadan : Mode
deriving DecidableEq

/-- `DayData` (`src/types.ts`, lines 53-71).  The string-keyed JS objects
`prayers` and `duaChecklist` are embedded as association lists (the order
of `Object.entries`). -/
structure DayData where
  date : String
  mode : Mode
  prayers : List (String × PrayerEntry)
  quranPages : Nat
  quranGoal : Nat
  morningAdhkar : Bool
  eveningAdhkar : Bool
  subhanAllah : Nat
  alhamdulillah : Nat
  allahuAkbar : Nat
  sadaqah : Bool
  fasting : Bool
  sahur : Bool
  iftar : Bool
  taraweeh : Bool
  tahajjud : Bool
  duaChecklist : List (String × Bool)
deriving DecidableEq

/-- `AppData` (`src/types.ts`, lines 73-77).  The `days` object is
embedded as the map it denotes: JS object keys are unique, so
`{ [date: string]: DayData }` is a partial map from strings. -/
structure AppData where
  days : String → Option DayData
  quranGoal : Nat
  dhikrTarget : Nat

/-- The completion score computed inside `mergeAppData`
(`src/unnamed/part_000`, lines 99-106):
`Object.values(day.prayers).filter((p) => p.fard).length
 + (day.morningAdhkar ? 1 : 0) + (day.eveningAdhkar ? 1 : 0)`. -/
def dayScore (day : DayData) : Nat :=
  ((day.prayers.map Prod.snd).filter (fun p => p.fard)).length
    + (if day.morningAdhkar then 1 else 0)
    + (if day.eveningAdhkar then 1 else 0)

/-- The completion score in the words of the spec (section 4.1): the
count of prayers marked `fard: true`, plus 1 if `morningAdhkar`, plus 1
if `eveningAdhkar`.  Kept separate from `dayScore` so the two can be
compared. -/
def specCompletionScore (day : DayData) : Nat :=
  day.prayers.countP (fun kv => kv.2.fard)
    + (if day.morningAdhkar then 1 else 0)
    + (if day.eveningAdhkar then 1 else 0)

/-- `mergeAppData` (`src/unnamed/part_000`, lines 92-111), pointwise.
The JS code seeds `mergedDays` with `{...remote.days}` and then, for
each `date` of `local.days`, stores the local record when the remote has
no record for that date, and otherwise the record of the side with the
greater score, local winning ties (`localScore >= remoteScore`). -/
def mergeAppData (localDoc remoteDoc : AppData) : AppData :=
  { days := fun date =>
      match localDoc.days date with
      | none => remoteDoc.days date
      | some localDay =>
        match remoteDoc.days date with
        | none => some localDay
        | some remoteDay =>
          some (if dayScore localDay ≥ dayScore remoteDay then localDay else remoteDay)
    quranGoal := localDoc.quranGoal
    dhikrTarget := localDoc.dhikrTarget }

/-! ### Merge over possibly-malformed day records

The TypeScript `AppData` type promises a `prayers` map on every day
record, but data pulled from the remote store is cast, not validated
(`return data.payload as AppData`, line 86), so a day record may reach
`mergeAppData` without one.  `Object.values(day.prayers)` then raises a
TypeError.  `RawDayData` makes the possibly-missing map explicit and the
raised exception is `Except.error ()`. -/

/-- A day record as it may actually arrive from the remote store: the
`prayers` map may be absent.  All other fields of `DayData` that the
merge reads are kept. -/
structure RawDayData where
  date : String
  mode : Mode
  prayers : Option (List (String × PrayerEntry))
  quranPages : Nat
  quranGoal : Nat
  morningAdhkar : Bool
  eveningAdhkar : Bool
  subhanAllah : Nat
  alhamdulillah : Nat
  allahuAkbar : Nat
  sadaqah : Bool
  fasting : Bool
  sahur : Bool
  iftar : Bool
  taraweeh : Bool
  tahajjud : Bool
  duaChecklist : List (String × Bool)
deriving DecidableEq

/-- An `AppData` whose day records may be malformed.  Here `days` is the
finite association list of `Object.entries(days)`, since the JS merge
loop visits exactly the present keys. -/
structure RawAppData where
  days : List (String × RawDayData)
  quranGoal : Nat
  dhikrTarget : Nat
deriving DecidableEq

/-- JS property lookup `days[date]` on an object embedded as an
association list. -/
def lookupDay (days : List (String × RawDayData)) (date : String) : Option RawDayData :=
  (days.find? (fun kv => kv.1 == date)).map Prod.snd

/-- JS property assignment `days[date] = day`: overwrite the key when
present, append it otherwise. -/
def setDay (days : List (String × RawDayData)) (date : String) (day : RawDayData) :
    List (String × RawDayData) :=
  if days.any (fun kv => kv.1 == date) then
    days.map (fun kv => if kv.1 == date then (date, day) else kv)
  else
    days ++ [(date, day)]

/-- The completion score of lines 99-106 over a raw day record.
`Object.values(day.prayers)` raises when `prayers` is absent, so the
score is an `Except`. -/
def rawDayScore (day : RawDayData) : Except Unit Nat :=
  match day.prayers with
  | none => Except.error ()
  | some prayers =>
    Except.ok (((prayers.map Prod.snd).filter (fun p => p.fard)).length
      + (if day.morningAdhkar then 1 else 0)
      + (if day.eveningAdhkar then 1 else 0))

/-- One iteration of the merge loop (lines 95-108) over raw records:
look the date up in the remote days; keep the local record when absent,
otherwise score both sides (either scoring may raise) and keep the
record of the winning side, local winning ties. -/
def mergeDayStep (remoteDays : List (String × RawDayData))
    (acc : List (String × RawDayData)) (kv : String × RawDayData) :
    Except Unit (List (String × RawDayData)) :=
  match lookupDay remoteDays kv.1 with
  | none => Except.ok (setDay acc kv.1 kv.2)
  | some remoteDay =>
    match rawDayScore kv.2 with
    | Except.error e => Except.error e
    | Except.ok localScore =>
      match rawDayScore remoteDay with
      | Except.error e => Except.error e
      | Except.ok remoteScore =>
        Except.ok (setDay acc kv.1 (if localScore ≥ remoteScore then kv.2 else remoteDay))

/-- The merge loop over the entries of `local.days`, threading the
accumulator seeded with `{...remote.days}`; an exception anywhere aborts
the whole merge. -/
def mergeDaysRaw (remoteDays : List (String × RawDayData))
    (acc : List (String × RawDayData)) :
    List (String × RawDayData) → Except Unit (List (String × RawDayData))
  | [] => Except.ok acc
  | kv :: rest =>
    match mergeDayStep remoteDays acc kv with
    | Except.error e => Except.error e
    | Except.ok next => mergeDaysRaw remoteDays next rest

/-- `mergeAppData` (lines 92-111) over possibly-malformed inputs: the
result of lines 93-110, or the TypeError the loop raises. -/
def mergeAppDataRaw (localDoc remoteDoc : RawAppData) : Except Unit RawAppData :=
  match mergeDaysRaw remoteDoc.days remoteDoc.days localDoc.days with
  | Except.error e => Except.error e
  | Except.ok mergedDays =>
    Except.ok { days := mergedDays
                quranGoal := localDoc.quranGoal
                dhikrTarget := localDoc.dhikrTarget }

/-- A local entry is safe to score against the given remote days: either
its date is absent remotely (no scoring happens), or both sides carry a
`prayers` map. -/
def scoreSafe (remoteDays : List (String × RawDayData)) (kv : String × RawDayData) : Bool :=
  match lookupDay remoteDays kv.1 with
  | none => true
  | some remoteDay => kv.2.prayers.isSome && remoteDay.prayers.isSome

/-! ### Remote store adapter (`src/unnamed/part_000`, lines 64-90)

`pushToCloud` and `pullFromCloud` wrap a supabase call in
`try { ... } catch { ... }` and short-circuit when the client is not
configured.  The behaviour of the network call is a parameter: it can
succeed, return an error value, or throw. -/

/-- Possible outcomes of an awaited supabase call: a successful value,
an error value in the response, or a thrown exception. -/
inductive RemoteCall (α : Type) where
  | ok : α → RemoteCall α
  | errValue : RemoteCall α
  | thrown : RemoteCall α
deriving DecidableEq

/-- `pushToCloud` (lines 64-75): `false` when supabase is not
configured; otherwise `!error` from the upsert, with any thrown
exception caught and converted to `false`.  The return type `Bool` (not
`Except`) is the embedding of "never throws". -/
def pushToCloud (configured : Bool) (upsert : RemoteCall Unit) : Bool :=
  if configured then
    match upsert with
    | RemoteCall.ok _ => true
    | RemoteCall.errValue => false
    | RemoteCall.thrown => false
  else false

/-- `pullFromCloud` (lines 77-90): `null` when not configured; the row's
payload on success; `null` on an error value, a missing row, or a thrown
exception. -/
def pullFromCloud (configured : Bool) (row : RemoteCall AppData) : Option AppData :=
  if configured then
    match row with
    | RemoteCall.ok payload => some payload
    | RemoteCall.errValue => none
    | RemoteCall.thrown => none
  else none

/-- The `habit_data` table: at most one row per `user_id`, each row a
payload plus an `updated_at` stamp. -/
def HabitTable : Type := String → Option (AppData × Nat)

/-- The storage effect of a successful `pushToCloud` (lines 67-70): an
upsert keyed by `user_id` (`onConflict: "user_id"`), writing the payload
and a fresh `updated_at` stamp. -/
def upsertHabitRow (table : HabitTable) (userId : String) (doc : AppData) (now : Nat) :
    HabitTable :=
  fun u => if u = userId then some (doc, now) else table u

/-- What `pullFromCloud` observes of a row (line 86): only the payload
(`updated_at` is selected but not returned). -/
def pullPayload (table : HabitTable) (userId : String) : Option AppData :=
  (table userId).map Prod.fst

/-! ### Sign-in sync sequence (`src/App.tsx`, lines 520-542) -/

/-- The environment the sign-in effect runs in: the result of the remote
pull, the Local Store content that `loadData()` returns, and the
in-memory `appData` captured by the effect closure. -/
structure SignInEnv where
  remoteData : Option AppData
  storedData : AppData
  memData : AppData

/-- The observable outcome of the sign-in effect on the AppDocument
path: the in-memory document after it runs, the Local Store content
after it runs, and the document passed to `pushToCloud`. -/
structure SignInResult where
  memAfter : AppData
  storedAfter : AppData
  pushedDoc : AppData

/-- The sign-in effect (lines 520-542), AppDocument path.  When the pull
returns a document it is merged with `loadData()`, and the merged result
is both set in memory (`setAppData(merged)`) and persisted
(`saveData(merged)`).  The final `pushToCloud(appData, user.id)` (line
539) passes the closure variable `appData` — the in-memory document as
of when the effect started, which `setAppData` does not reassign — so
the pushed document is `memData`, not the merged one.  (The independent
UserProfile pull of lines 532-537 touches neither the AppDocument nor
the push argument and is not modelled.) -/
def signInSync (env : SignInEnv) : SignInResult :=
  match env.remoteData with
  | some remote =>
    let merged := mergeAppData env.storedData remote
    { memAfter := merged, storedAfter := merged, pushedDoc := env.memData }
  | none =>
    { memAfter := env.memData, storedAfter := env.storedData, pushedDoc := env.memData }

/-! ### Debounced auto-sync (`src/App.tsx`, lines 545-556)

The effect runs on every change of `appData` (a mutation trigger): it
clears any pending timer (`clearTimeout`) and schedules a push of the
current `appData` 2000 ms later (`setTimeout`).  The single-threaded
event loop fires a pending timer only once its deadline has passed.  The
model keeps the pending timer (deadline and captured document) as the
state, processes mutation triggers in time order, and lets due timers
fire between events. -/

/-- `// 2s debounce` (line 552). -/
def debounceInterval : Nat := 2000

/-- The pending debounce timer held in `syncTimeoutRef`: its fire
deadline and the document its callback captured, when one is
scheduled. -/
structure DebounceState where
  pending : Option (Nat × AppData)

/-- A mutation trigger at time `t` with current document `doc` (lines
547-552): cancel any pending timer, schedule a new one at
`t + debounceInterval` capturing `doc`. -/
def triggerMutation (_s : DebounceState) (t : Nat) (doc : AppData) : DebounceState :=
  { pending := some (t + debounceInterval, doc) }

/-- The event loop at time `now`: a pending timer whose deadline has
passed fires, issuing one push of its captured document and clearing the
slot. -/
def fireDue (s : DebounceState) (now : Nat) : List AppData × DebounceState :=
  match s.pending with
  | none => ([], s)
  | some (deadline, doc) =>
    if deadline ≤ now then ([doc], { pending := none }) else ([], s)

/-- Process a time-ordered list of mutation triggers: before each
trigger is handled, any timer already due fires; the outputs are the
pushes issued during the run and the final timer state. -/
def runMutations (s : DebounceState) : List (Nat × AppData) → List AppData × DebounceState
  | [] => ([], s)
  | (t, doc) :: rest =>
    let fired := fireDue s t
    let s2 := triggerMutation fired.2 t doc
    let tail := runMutations s2 rest
    (fired.1 ++ tail.1, tail.2)

/-! ### Concrete documents used by witnesses and counterexamples -/

/-- A day record with the given date, prayers, and adhkar flags, all
other fields at their defaults. -/
def mkDay (date : String) (prayers : List (String × PrayerEntry)) (ma ea : Bool) : DayData :=
  { date := date, mode := Mode.annual, prayers := prayers, quranPages := 0, quranGoal := 1,
    morningAdhkar := ma, eveningAdhkar := ea, subhanAllah := 0, alhamdulillah := 0,
    allahuAkbar := 0, sadaqah := false, fasting := false, sahur := false, iftar := false,
    taraweeh := false, tahajjud := false, duaChecklist := [] }

/-- A raw day record with the given date, optional prayers map, and
adhkar flags. -/
def mkRawDay (date : String) (prayers : Option (List (String × PrayerEntry))) (ma ea : Bool) :
    RawDayData :=
  { date := date, mode := Mode.annual, prayers := prayers, quranPages := 0, quranGoal := 1,
    morningAdhkar := ma, eveningAdhkar := ea, subhanAllah := 0, alhamdulillah := 0,
    allahuAkbar := 0, sadaqah := false, fasting := false, sahur := false, iftar := false,
    taraweeh := false, tahajjud := false, duaChecklist := [] }

/-- The five prayers with the given fard flags, sunnah all false. -/
def fivePrayers (f1 f2 f3 f4 f5 : Bool) : List (String × PrayerEntry) :=
  [("fajr", ⟨f1, false⟩), ("dhuhr", ⟨f2, false⟩), ("asr", ⟨f3, false⟩),
   ("maghrib", ⟨f4, false⟩), ("isha", ⟨f5, false⟩)]

/-- Spec section 8 scenario, local side: 3 fard prayers, both adhkar —
score 5. -/
def c3LocalDay : DayData := mkDay "2024-03-01" (fivePrayers true true true false false) true true

/-- Spec section 8 scenario, remote side: 5 fard prayers, no adhkar —
score 5. -/
def c3RemoteDay : DayData := mkDay "2024-03-01" (fivePrayers true true true true true) false false

/-- Local document holding only the scenario day. -/
def c3LocalDoc : AppData :=
  ⟨fun d => if d = "2024-03-01" then some c3LocalDay else none, 2, 33⟩

/-- Remote document holding only the scenario day. -/
def c3RemoteDoc : AppData :=
  ⟨fun d => if d = "2024-03-01" then some c3RemoteDay else none, 5, 99⟩

/-- A local document holding only `2024-03-01`. -/
def c5LocalDoc : AppData :=
  ⟨fun d => if d = "2024-03-01" then some (mkDay "2024-03-01" (fivePrayers true false false false false) false false) else none, 1, 33⟩

/-- A remote document holding only `2024-03-02`. -/
def c5RemoteDoc : AppData :=
  ⟨fun d => if d = "2024-03-02" then some (mkDay "2024-03-02" (fivePrayers true true false false false) true false) else none, 4, 10⟩

/-- A raw local document whose one day record lacks its `prayers`
map. -/
def c2LocalDoc : RawAppData :=
  ⟨[("2024-03-01", mkRawDay "2024-03-01" none true true)], 1, 33⟩

/-- A raw remote document holding a well-formed record for the same
date. -/
def c2RemoteDoc : RawAppData :=
  ⟨[("2024-03-01", mkRawDay "2024-03-01" (some (fivePrayers true true false false false)) false false)], 2, 20⟩

/-- Raw local document for the amended-claim witness: one well-formed
day shared with the remote, one day private to the local side. -/
def c2WfLocalDoc : RawAppData :=
  ⟨[("2024-03-01", mkRawDay "2024-03-01" (some (fivePrayers true true true false false)) true false),
    ("2024-03-02", mkRawDay "2024-03-02" none false false)], 1, 33⟩

/-- Raw remote document for the amended-claim witness: a well-formed
record for the shared date and one remote-only date. -/
def c2WfRemoteDoc : RawAppData :=
  ⟨[("2024-03-01", mkRawDay "2024-03-01" (some (fivePrayers true true true true true)) false false),
    ("2024-03-03", mkRawDay "2024-03-03" none true true)], 7, 11⟩

/-- The empty document `loadData()` falls back to
(`src/App.tsx`, line 315). -/
def emptyAppData : AppData := ⟨fun _ => none, 1, 33⟩

/-- A remote document holding one day, used to exhibit the sign-in
push. -/
def c1RemoteDoc : AppData :=
  ⟨fun d => if d = "2024-03-01" then some c3RemoteDay else none, 5, 99⟩

/-- Sign-in environment: fresh device (empty local store and memory), a
remote document present. -/
def c1Env : SignInEnv :=
  { remoteData := some c1RemoteDoc, storedData := emptyAppData, memData := emptyAppData }

/-- Documents as of the first, second and third mutation trigger of the
debounce witness. -/
def c7DocA : AppData := ⟨fun _ => none, 1, 33⟩

/-- Document as of the second trigger. -/
def c7DocB : AppData := ⟨fun _ => none, 2, 33⟩

/-- Document as of the third (last) trigger. -/
def c7DocC : AppData := ⟨fun _ => none, 3, 33⟩

/-! ## Theorems -/

/-- Counting the `fard`-marked values of the prayers map equals counting
the `fard`-marked entries. -/
theorem length_filter_map_eq_countP (l : List (String × PrayerEntry)) :
    ((l.map Prod.snd).filter (fun p => p.fard)).length = l.countP (fun kv => kv.2.fard) := by
  induction l with
  | nil => rfl
  | cons kv rest ih =>
    simp only [List.map_cons, List.filter_cons, List.countP_cons]
    cases h : kv.2.fard <;> simp [h, ih]

/-- The source's score agrees with the spec's formula for the completion
score. -/
theorem dayScore_eq_specCompletionScore (d : DayData) :
    dayScore d = specCompletionScore d := by
  unfold dayScore specCompletionScore
  rw [length_filter_map_eq_countP]

/-- C3: for a date present in both sides, the merged entry is the local
record when the local completion score is greater than or equal to the
remote score and the remote record otherwise, ties favoring local; the
score is the count of `fard`-true prayers plus 1 per completed adhkar,
as the spec states. -/
theorem mergeAppData_conflict_resolution (l r : AppData) (date : String)
    (ld rd : DayData) (hl : l.days date = some ld) (hr : r.days date = some rd) :
    (mergeAppData l r).days date = some (if dayScore ld ≥ dayScore rd then ld else rd) ∧
    (dayScore ld = dayScore rd → (mergeAppData l r).days date = some ld) ∧
    dayScore ld = specCompletionScore ld ∧ dayScore rd = specCompletionScore rd := by
  refine ⟨?_, ?_, dayScore_eq_specCompletionScore ld, dayScore_eq_specCompletionScore rd⟩
  · simp [mergeAppData, hl, hr]
  · intro hEq
    simp [mergeAppData, hl, hr, hEq]

/-- C3 witness: the spec's section 8 scenario — local has 3 fard prayers
plus both adhkar (score 5), remote has 5 fard prayers and no adhkar
(score 5); the tie goes to the local record. -/
theorem mergeAppData_conflict_resolution_witness :
    c3LocalDoc.days "2024-03-01" = some c3LocalDay ∧
    c3RemoteDoc.days "2024-03-01" = some c3RemoteDay ∧
    dayScore c3LocalDay = dayScore c3RemoteDay ∧
    (mergeAppData c3LocalDoc c3RemoteDoc).days "2024-03-01" = some c3LocalDay :=
  ⟨by decide, by decide, by decide,
   (mergeAppData_conflict_resolution c3LocalDoc c3RemoteDoc "2024-03-01"
      c3LocalDay c3RemoteDay (by decide) (by decide)).2.1 (by decide)⟩

/-- C4: the merge is a total function (its Lean type is
`AppData → AppData → AppData`), and a date has an entry in the merged
`days` exactly when it has one in the local or the remote `days`: the
result's key set is the union of the inputs' key sets. -/
theorem mergeAppData_days_keyset_union (l r : AppData) (date : String) :
    ((mergeAppData l r).days date).isSome
      = ((l.days date).isSome || (r.days date).isSome) := by
  cases hl : l.days date <;> cases hr : r.days date <;>
    simp [mergeAppData, hl, hr]

/-- C5: a date present only in the local `days` keeps its local entry in
the merge, and a date present only in the remote `days` keeps its remote
entry. -/
theorem mergeAppData_one_sided_preservation (l r : AppData) (dL dR : String)
    (hL : r.days dL = none) (hR : l.days dR = none) :
    (mergeAppData l r).days dL = l.days dL ∧
    (mergeAppData l r).days dR = r.days dR := by
  constructor
  · cases h : l.days dL <;> simp [mergeAppData, h, hL]
  · simp [mergeAppData, hR]

/-- C5 witness: local holds only `2024-03-01`, remote holds only
`2024-03-02`; each survives the merge unchanged. -/
theorem mergeAppData_one_sided_preservation_witness :
    c5RemoteDoc.days "2024-03-01" = none ∧
    c5LocalDoc.days "2024-03-02" = none ∧
    ((mergeAppData c5LocalDoc c5RemoteDoc).days "2024-03-01" = c5LocalDoc.days "2024-03-01" ∧
     (mergeAppData c5LocalDoc c5RemoteDoc).days "2024-03-02" = c5RemoteDoc.days "2024-03-02") :=
  ⟨by decide, by decide,
   mergeAppData_one_sided_preservation c5LocalDoc c5RemoteDoc "2024-03-01" "2024-03-02"
     (by decide) (by decide)⟩

/-- C6: the merged document's `quranGoal` and `dhikrTarget` are always
the local ones (`src/unnamed/part_000`, line 110), whatever the remote
holds. -/
theorem mergeAppData_goal_precedence (l r : AppData) :
    (mergeAppData l r).quranGoal = l.quranGoal ∧
    (mergeAppData l r).dhikrTarget = l.dhikrTarget :=
  ⟨rfl, rfl⟩

/-- C10: merging a document with itself returns it unchanged — every
date maps to the same day record (the tie goes to the local copy, which
is the same record) and the goals are the local ones. -/
theorem mergeAppData_idempotent (d : AppData) : mergeAppData d d = d := by
  cases d with
  | mk days qg dt =>
    simp only [mergeAppData]
    congr 1
    funext date
    cases h : days date with
    | none => rfl
    | some dd => simp

/-- C2 counterexample: a local day record lacking its `prayers` map,
for a date the remote also holds, makes the merge raise (the embedded
TypeError), instead of scoring that side zero and returning a result. -/
theorem mergeAppDataRaw_error_on_missing_prayers :
    mergeAppDataRaw c2LocalDoc c2RemoteDoc = Except.error () := rfl

/-- A merge-loop step succeeds when its local entry is safe to score
against the remote days. -/
theorem mergeDayStep_ok (remoteDays acc : List (String × RawDayData))
    (kv : String × RawDayData) (h : scoreSafe remoteDays kv = true) :
    ∃ next, mergeDayStep remoteDays acc kv = Except.ok next := by
  unfold scoreSafe at h
  cases hlook : lookupDay remoteDays kv.1 with
  | none =>
    simp only [mergeDayStep, hlook]
    exact ⟨_, rfl⟩
  | some remoteDay =>
    rw [hlook, Bool.and_eq_true] at h
    obtain ⟨h1, h2⟩ := h
    cases hp1 : kv.2.prayers with
    | none => rw [hp1] at h1; cases h1
    | some ps1 =>
      cases hp2 : remoteDay.prayers with
      | none => rw [hp2] at h2; cases h2
      | some ps2 =>
        simp only [mergeDayStep, hlook, rawDayScore, hp1, hp2]
        exact ⟨_, rfl⟩

/-- The merge loop succeeds from any accumulator when every local entry
is safe to score. -/
theorem mergeDaysRaw_ok (remoteDays : List (String × RawDayData))
    (entries : List (String × RawDayData)) :
    ∀ acc, (∀ kv ∈ entries, scoreSafe remoteDays kv = true) →
      ∃ out, mergeDaysRaw remoteDays acc entries = Except.ok out := by
  induction entries with
  | nil => exact fun acc _ => ⟨acc, rfl⟩
  | cons kv rest ih =>
    intro acc h
    obtain ⟨next, hstep⟩ := mergeDayStep_ok remoteDays acc kv (h kv (List.mem_cons_self kv rest))
    obtain ⟨out, hout⟩ := ih next (fun kv2 hm => h kv2 (List.mem_cons_of_mem kv hm))
    refine ⟨out, ?_⟩
    unfold mergeDaysRaw
    rw [hstep]
    exact hout

/-- C2 amended: the merge returns a result whenever every local day
record whose date the remote also holds carries a `prayers` map on both
sides (in particular on all well-formed inputs); when such a record is
missing its `prayers` map the merge raises instead of treating that side
as score zero. -/
theorem mergeAppDataRaw_ok_of_prayers_present (l r : RawAppData)
    (h : ∀ kv ∈ l.days, scoreSafe r.days kv = true) :
    ∃ m, mergeAppDataRaw l r = Except.ok m ∧
      m.quranGoal = l.quranGoal ∧ m.dhikrTarget = l.dhikrTarget := by
  obtain ⟨out, hout⟩ := mergeDaysRaw_ok r.days l.days r.days h
  refine ⟨⟨out, l.quranGoal, l.dhikrTarget⟩, ?_, rfl, rfl⟩
  unfold mergeAppDataRaw
  rw [hout]

/-- C2 amended witness: raw documents with one shared well-formed date,
a local-only malformed day and a remote-only malformed day (neither is
scored) merge successfully. -/
theorem mergeAppDataRaw_ok_of_prayers_present_witness :
    (∀ kv ∈ c2WfLocalDoc.days, scoreSafe c2WfRemoteDoc.days kv = true) ∧
    ∃ m, mergeAppDataRaw c2WfLocalDoc c2WfRemoteDoc = Except.ok m ∧
      m.quranGoal = c2WfLocalDoc.quranGoal ∧ m.dhikrTarget = c2WfLocalDoc.dhikrTarget :=
  ⟨by decide, mergeAppDataRaw_ok_of_prayers_present c2WfLocalDoc c2WfRemoteDoc (by decide)⟩

/-- C1: on sign-in with a remote document present, the merged document
is set in memory and persisted to the Local Store, but the document
passed to `pushToCloud` is the effect's stale closure `appData`
(`src/App.tsx`, line 539), not the merged one: on a fresh device pulling
a non-empty remote, the merged in-memory and persisted documents hold
the remote day while the pushed document does not. -/
theorem signInSync_pushes_stale_document :
    (signInSync c1Env).memAfter = mergeAppData c1Env.storedData c1RemoteDoc ∧
    (signInSync c1Env).storedAfter = mergeAppData c1Env.storedData c1RemoteDoc ∧
    (signInSync c1Env).memAfter.days "2024-03-01" = some c3RemoteDay ∧
    (signInSync c1Env).storedAfter.days "2024-03-01" = some c3RemoteDay ∧
    (signInSync c1Env).pushedDoc = c1Env.memData ∧
    (signInSync c1Env).pushedDoc.days "2024-03-01" = none :=
  ⟨rfl, rfl, by decide, by decide, rfl, rfl⟩

/-- While a burst of triggers all falls inside the first trigger's
debounce window, no timer fires: each trigger cancels the pending timer
and reschedules, leaving exactly the last trigger's document pending. -/
theorem runMutations_quiet (t0 : Nat) (rest : List (Nat × AppData)) :
    ∀ (D : Nat) (d : AppData),
      (∀ e ∈ rest, t0 ≤ e.1 ∧ e.1 < t0 + debounceInterval) →
      t0 + debounceInterval ≤ D →
      runMutations ⟨some (D, d)⟩ rest =
        ([], ⟨some ((rest.getLast?.map
          (fun e => (e.1 + debounceInterval, e.2))).getD (D, d))⟩) := by
  induction rest with
  | nil => intro D d _ _; rfl
  | cons e rest ih =>
    obtain ⟨t, doc⟩ := e
    intro D d h hD
    obtain ⟨ht0, hlt⟩ := h (t, doc) (List.mem_cons_self _ rest)
    have hno : ¬ (D ≤ t) := by omega
    have ihres := ih (t + debounceInterval) doc
      (fun x hx => h x (List.mem_cons_of_mem (t, doc) hx)) (by omega)
    simp only [runMutations, fireDue, triggerMutation, if_neg hno]
    rw [ihres]
    cases rest with
    | nil => rfl
    | cons e2 rest2 =>
      rw [List.getLast?_cons_cons,
        List.getLast?_eq_getLast_of_ne_nil (List.cons_ne_nil e2 rest2)]
      rfl

/-- C7: for a first mutation trigger at `t0` followed by any further
triggers inside the window `[t0, t0 + 2000)`, the run issues no push
during the burst, and once the loop reaches any quiescent time `T` past
the window plus the debounce interval, exactly one push fires, carrying
the document of the last trigger. -/
theorem debounce_collapses_to_last (t0 : Nat) (d0 : AppData)
    (rest : List (Nat × AppData)) (T : Nat)
    (hin : ∀ e ∈ rest, t0 ≤ e.1 ∧ e.1 < t0 + debounceInterval)
    (hT : t0 + 2 * debounceInterval ≤ T) :
    (runMutations ⟨none⟩ ((t0, d0) :: rest)).1 = [] ∧
    fireDue (runMutations ⟨none⟩ ((t0, d0) :: rest)).2 T =
      ([(rest.getLast?.getD (t0, d0)).2], ⟨none⟩) := by
  have hq := runMutations_quiet t0 rest (t0 + debounceInterval) d0 hin (le_refl _)
  have hrun : runMutations ⟨none⟩ ((t0, d0) :: rest) =
      ([], ⟨some ((rest.getLast?.map
        (fun e => (e.1 + debounceInterval, e.2))).getD (t0 + debounceInterval, d0))⟩) := by
    simp only [runMutations, fireDue, triggerMutation]
    rw [hq]
    rfl
  refine ⟨by rw [hrun], ?_⟩
  rw [hrun]
  cases hlast : rest.getLast? with
  | none =>
    simp only [hlast, Option.map_none', Option.getD_none, Option.getD_some, fireDue]
    rw [if_pos (by omega)]
  | some e =>
    have hmem : e ∈ rest := by
      obtain ⟨hne, he⟩ := List.mem_getLast?_eq_getLast (Option.mem_def.mpr hlast)
      exact he ▸ List.getLast_mem hne
    obtain ⟨he1, he2⟩ := hin e hmem
    simp only [hlast, Option.map_some', Option.getD_some, fireDue]
    rw [if_pos (by omega)]

/-- C7 witness: three triggers at 0, 500 and 900 ms with successive
documents; nothing is pushed during the burst, and the flush at 4000 ms
issues exactly one push carrying the last trigger's document. -/
theorem debounce_collapses_to_last_witness :
    (∀ e ∈ ([(500, c7DocB), (900, c7DocC)] : List (Nat × AppData)),
      0 ≤ e.1 ∧ e.1 < 0 + debounceInterval) ∧
    0 + 2 * debounceInterval ≤ 4000 ∧
    ((runMutations ⟨none⟩ ((0, c7DocA) :: [(500, c7DocB), (900, c7DocC)])).1 = [] ∧
     fireDue (runMutations ⟨none⟩ ((0, c7DocA) :: [(500, c7DocB), (900, c7DocC)])).2 4000 =
       ([(([(500, c7DocB), (900, c7DocC)] : List (Nat × AppData)).getLast?.getD (0, c7DocA)).2],
        ⟨none⟩)) :=
  ⟨by decide, by decide,
   debounce_collapses_to_last 0 c7DocA [(500, c7DocB), (900, c7DocC)] 4000
     (by decide) (by decide)⟩

/-- C8: the remote adapter returns plain values, never an exception (its
embedded types are `Bool` and `Option`, with the thrown branch of the
underlying call mapped to `false`/`none` by the catch): unconfigured
push and pull short-circuit to `false` and `none`; a configured push
returns `true` exactly on success and `false` on an error value or a
thrown exception; a configured pull returns the stored payload on
success and `none` on an error value, a missing row, or a thrown
exception. -/
theorem remote_adapter_contract :
    (∀ u : RemoteCall Unit, pushToCloud false u = false) ∧
    (∀ s : RemoteCall AppData, pullFromCloud false s = none) ∧
    pushToCloud true (RemoteCall.ok ()) = true ∧
    pushToCloud true RemoteCall.errValue = false ∧
    pushToCloud true RemoteCall.thrown = false ∧
    (∀ d : AppData, pullFromCloud true (RemoteCall.ok d) = some d) ∧
    pullFromCloud true RemoteCall.errValue = none ∧
    pullFromCloud true RemoteCall.thrown = none :=
  ⟨fun _ => rfl, fun _ => rfl, rfl, rfl, rfl, fun _ => rfl, rfl, rfl⟩

/-- C9: pushing the same document twice in a row leaves the `habit_data`
table equal to a single push (the upsert keyed by `user_id` absorbs the
first write), and in particular every pull observes the same payload as
after one push. -/
theorem pushToCloud_idempotent_store (table : HabitTable) (userId : String)
    (doc : AppData) (t1 t2 : Nat) :
    upsertHabitRow (upsertHabitRow table userId doc t1) userId doc t2
      = upsertHabitRow table userId doc t2 ∧
    (∀ u, pullPayload (upsertHabitRow (upsertHabitRow table userId doc t1) userId doc t2) u
      = pullPayload (upsertHabitRow table userId doc t1) u) := by
  constructor
  · funext u
    unfold upsertHabitRow
    by_cases h : u = userId <;> simp [h]
  · intro u
    unfold pullPayload upsertHabitRow
    by_cases h : u = userId <;> simp [h]
